import Mathlib

/-
Shallow embedding of the PlayerGold Unreal SDK client
(src/api/sdks/unreal/PlayerGoldSDK.cpp with its header PlayerGoldSDK.h).

Embedding conventions:
- C++ doubles and floats (times, balances, amounts, the fee constant) are
  modelled as rationals (the source performs only exact additions,
  subtractions and comparisons on them).
- The ambient clock FPlatformTime::Seconds() is an explicit argument `now`.
- Each SDK method and each HTTP completion handler is a pure function from
  the subsystem state (the private fields ApiUrl, ApiKey, AuthToken,
  TokenExpirationTime) and its arguments to the possibly-updated state
  paired with the ordered list of externally observable actions it performs:
  HTTP requests handed to ProcessRequest (tagged with the completion handler
  bound to them), delegate executions (ExecuteIfBound on the caller-supplied
  success and error delegates), and UE_LOG log lines.
- JSON request bodies built with FJsonObject::SetStringField /
  SetNumberField and then serialized into the request are modelled as the
  structured field list itself rather than its serialized text.
- The Unreal JSON library functions the source calls (FJsonSerializer /
  FJsonObject, which are engine code, not part of this repository) are
  modelled below from their engine semantics:
  FJsonSerializer::Deserialize into a TSharedPtr<FJsonObject> succeeds
  exactly when the text parses as a JSON object; FJsonObject::GetStringField
  returns the string payload of the named field, or the empty string when
  the field is missing or not a string (the engine logs a warning and
  returns a default, it does not throw); FJsonObject::GetNumberField
  likewise returns the field's number or 0; FJsonObject::GetIntegerField is
  GetNumberField cast to int32, i.e. truncated toward zero. The parser
  covers the JSON fragment relevant to this client: objects, arrays,
  strings with the common single-character escapes, decimal numbers with an
  optional fractional part, booleans and null.
-/

namespace PlayerGold

/-- Abstract syntax of JSON values (the engine's FJsonValue shapes). -/
inductive JValue where
  | jnull
  | jbool (b : Bool)
  | jnum (q : ℚ)
  | jstr (s : String)
  | jarr (elems : List JValue)
  | jobj (fields : List (String × JValue))

/-- A JSON object is its ordered field list (FJsonObject's key-value map). -/
abbrev JObj := List (String × JValue)

/-- The four JSON whitespace characters. -/
def jsonWhitespace : List Char := [' ', '\t', '\n', '\r']

/-- Skip JSON whitespace. -/
def skipWs (cs : List Char) : List Char :=
  cs.dropWhile fun c => jsonWhitespace.contains c

/-- Translation table for the single-character string escapes accepted by
the parser. -/
def escTable : List (Char × Char) :=
  [('"', '"'), ('\\', '\\'), ('/', '/'), ('n', '\n'), ('t', '\t'),
   ('r', '\r'), ('b', Char.ofNat 8), ('f', Char.ofNat 12)]

/-- Meaning of one escape character, when it has one. -/
def escChar (e : Char) : Option Char := escTable.lookup e

/-- Consume the characters of a JSON string up to its closing quote. -/
def parseStringChars : List Char → Option (List Char × List Char)
  | [] => none
  | '"' :: rest => some ([], rest)
  | '\\' :: e :: rest =>
      (escChar e).bind fun c =>
        (parseStringChars rest).map fun sr => (c :: sr.1, sr.2)
  | c :: rest =>
      (parseStringChars rest).map fun sr => (c :: sr.1, sr.2)

/-- Split a maximal leading run of decimal digits from the rest. -/
def splitDigits (cs : List Char) : List Char × List Char :=
  cs.span fun c => c.isDigit

/-- Numeric value of a digit run. -/
def digitsVal (ds : List Char) : ℕ :=
  ds.foldl (fun acc c => 10 * acc + (c.toNat - 48)) 0

/-- Parse an unsigned decimal number with an optional fractional part: the
digits on both sides of the dot read as one integer, scaled back down by
the length of the fractional run. -/
def parseUnsigned (cs : List Char) : Option (ℚ × List Char) :=
  match splitDigits cs with
  | ([], _) => none
  | (ds, rest) =>
      match rest with
      | '.' :: cs2 =>
          match splitDigits cs2 with
          | ([], _) => none
          | (fs, rest2) =>
              some ((digitsVal (ds ++ fs) : ℚ) / (10 : ℚ) ^ fs.length, rest2)
      | _ => some ((digitsVal ds : ℚ), rest)

/-- Parse a decimal number with an optional leading minus sign. -/
def parseNumber (cs : List Char) : Option (ℚ × List Char) :=
  match cs with
  | '-' :: cs1 => (parseUnsigned cs1).map fun vr => (-vr.1, vr.2)
  | _ => parseUnsigned cs

/-- Strip an expected literal character sequence from the input. -/
def stripLit (lit cs : List Char) : Option (List Char) :=
  match lit, cs with
  | [], rest => some rest
  | l :: ls, c :: rest => if c = l then stripLit ls rest else none
  | _ :: _, [] => none

/-- Set a field of a JSON object, replacing an existing binding of the same
key (FJsonObject::SetField over its key map). -/
def setField (fields : JObj) (name : String) (v : JValue) : JObj :=
  match fields with
  | [] => [(name, v)]
  | (k, w) :: rest => if k = name then (k, v) :: rest else (k, w) :: setField rest name v

mutual

/-- Parse one JSON value. The fuel argument bounds the recursion depth; any
fuel larger than the input length is enough, because every recursive call is
preceded by the consumption of at least one input character. -/
def parseValue : ℕ → List Char → Option (JValue × List Char)
  | 0, _ => none
  | Nat.succ fuel, cs =>
    match skipWs cs with
    | [] => none
    | 'n' :: t => (stripLit "ull".data t).map fun r => (JValue.jnull, r)
    | 't' :: t => (stripLit "rue".data t).map fun r => (JValue.jbool true, r)
    | 'f' :: t => (stripLit "alse".data t).map fun r => (JValue.jbool false, r)
    | '"' :: t =>
        (parseStringChars t).map fun sr => (JValue.jstr (String.mk sr.1), sr.2)
    | '[' :: t =>
        match skipWs t with
        | ']' :: r => some (JValue.jarr [], r)
        | r => parseElems fuel r []
    | '\x7b' :: t =>
        match skipWs t with
        | '\x7d' :: r => some (JValue.jobj [], r)
        | r => parseMembers fuel r []
    | other =>
        (parseNumber other).map fun qr => (JValue.jnum qr.1, qr.2)

/-- Parse the comma-separated elements of a non-empty JSON array. -/
def parseElems : ℕ → List Char → List JValue → Option (JValue × List Char)
  | 0, _, _ => none
  | Nat.succ fuel, cs, acc =>
    match parseValue fuel cs with
    | some (v, r1) =>
        match skipWs r1 with
        | ',' :: r2 => parseElems fuel r2 (acc ++ [v])
        | ']' :: r2 => some (JValue.jarr (acc ++ [v]), r2)
        | _ => none
    | none => none

/-- Parse the comma-separated members of a non-empty JSON object. -/
def parseMembers : ℕ → List Char → JObj → Option (JValue × List Char)
  | 0, _, _ => none
  | Nat.succ fuel, cs, acc =>
    match skipWs cs with
    | '"' :: rest =>
        match parseStringChars rest with
        | some (ks, r1) =>
            match skipWs r1 with
            | ':' :: r2 =>
                match parseValue fuel r2 with
                | some (v, r3) =>
                    match skipWs r3 with
                    | ',' :: r4 => parseMembers fuel r4 (setField acc (String.mk ks) v)
                    | '\x7d' :: r4 => some (JValue.jobj (setField acc (String.mk ks) v), r4)
                    | _ => none
                | none => none
            | _ => none
        | none => none
    | _ => none

end

/-- Model of FJsonSerializer::Deserialize into a TSharedPtr<FJsonObject>:
succeeds exactly when the content parses as a JSON object, yielding its
field list. -/
def FJsonSerializer_Deserialize (content : String) : Option JObj :=
  match parseValue (content.length + 1) content.data with
  | some (JValue.jobj fields, _) => some fields
  | _ => none

/-- First binding of a field name in an object (FJsonObject::TryGetField). -/
def findField (fields : JObj) (name : String) : Option JValue :=
  match fields with
  | [] => none
  | (k, v) :: rest => if k = name then some v else findField rest name

/-- FJsonObject::GetStringField: the string payload of the named field, or
the empty string when the field is missing or not a string (the engine logs
a warning and substitutes a null value whose AsString is empty). -/
def getStringField (fields : JObj) (name : String) : String :=
  match findField fields name with
  | some (JValue.jstr s) => s
  | _ => ""

/-- FJsonObject::GetNumberField: the numeric payload of the named field, or
0 when the field is missing or not a number (the engine logs a warning and
substitutes a null value whose AsNumber is 0). -/
def getNumberField (fields : JObj) (name : String) : ℚ :=
  match findField fields name with
  | some (JValue.jnum q) => q
  | _ => 0

/-- C-style cast of a double to an integer: truncation toward zero. -/
def doubleToInt32 (q : ℚ) : ℤ :=
  if 0 ≤ q then ⌊q⌋ else -⌊-q⌋

/-- FJsonObject::GetIntegerField: GetNumberField cast to int32. -/
def getIntegerField (fields : JObj) (name : String) : ℤ :=
  doubleToInt32 (getNumberField fields name)

/-- An HTTP request under construction (IHttpRequest): its URL, verb,
header list, and the JSON object set as its body by SetContentAsString
(none when no body was set). The body is kept structured because the source
builds it field by field with SetStringField / SetNumberField and the
serialization itself happens inside the engine. -/
structure HttpRequest where
  url : String
  verb : String
  headers : List (String × String)
  content : Option JObj

/-- A completed HTTP response (IHttpResponse): the source only reads its
content string via GetContentAsString. A completion handler receives an
Option HttpResponse, none standing for an invalid (null) response pointer. -/
structure HttpResponse where
  content : String

/-- The completion handler bound to a request by OnProcessRequestComplete,
or unbound for the requests of GetTransaction and GetNetworkStatus, which
bind none. -/
inductive Handler where
  | authResponse
  | balanceResponse
  | transactionResponse
  | unbound

/-- Externally observable actions of the SDK, in the order the source
performs them: handing a request to ProcessRequest, executing a bound
delegate (ExecuteIfBound on the caller-supplied success or error
delegates), and writing a UE_LOG line. -/
inductive SDKEvent where
  | sendRequest (req : HttpRequest) (handler : Handler)
  | invokeBalanceSuccess (balance : ℚ)
  | invokeTransactionSuccess (transactionHash : String)
  | invokeError (errorMessage : String)
  | logMessage (msg : String)

/-- The private fields of UPlayerGoldSDK that persist across calls. -/
structure SDKState where
  ApiUrl : String
  ApiKey : String
  AuthToken : String
  TokenExpirationTime : ℚ

/-- IHttpResponse::GetContentAsString; only ever called by the source under
a Response.IsValid() guard, so the default for the invalid pointer is never
reached. -/
def getContentAsString : Option HttpResponse → String
  | some r => r.content
  | none => ""

/-- UPlayerGoldSDK::CreateRequest: combines the endpoint with the
configured base URL, sets the verb, always sets Content-Type, and sets the
Authorization bearer header only when AuthToken is non-empty. -/
def CreateRequest (s : SDKState) (Endpoint Verb : String) : HttpRequest :=
  { url := s.ApiUrl ++ Endpoint
    verb := Verb
    headers :=
      [("Content-Type", "application/json")] ++
      (if s.AuthToken = "" then [] else [("Authorization", "Bearer " ++ s.AuthToken)])
    content := none }

/-- UPlayerGoldSDK::Authenticate: POST /auth/token with body containing the
api_key field, completion bound to OnAuthenticationResponse. The method
itself mutates no field; only its response handler does. -/
def Authenticate (s : SDKState) : List SDKEvent :=
  let Request := CreateRequest s "/auth/token" "POST"
  [SDKEvent.sendRequest
    { Request with content := some [("api_key", JValue.jstr s.ApiKey)] }
    Handler.authResponse]

/-- UPlayerGoldSDK::InitializeSDK: stores the API key and base URL, then
immediately calls Authenticate. -/
def InitializeSDK (s : SDKState) (InApiKey InApiUrl : String) : SDKState × List SDKEvent :=
  let s2 := { s with ApiKey := InApiKey, ApiUrl := InApiUrl }
  (s2, Authenticate s2)

/-- UPlayerGoldSDK::EnsureAuthenticated: re-authenticate when the token is
empty or the clock has reached five minutes before its expiration. -/
def EnsureAuthenticated (s : SDKState) (now : ℚ) : List SDKEvent :=
  if s.AuthToken = "" ∨ now ≥ s.TokenExpirationTime - 300 then Authenticate s else []

/-- UPlayerGoldSDK::OnAuthenticationResponse: on a successful flag and a
valid response whose body deserializes, stores the token field and sets the
expiration to now plus the expires_in field; on deserialization failure
inside the success branch, does nothing; otherwise logs the failure and
leaves the state untouched. -/
def OnAuthenticationResponse (s : SDKState) (now : ℚ) (Response : Option HttpResponse)
    (bWasSuccessful : Bool) : SDKState × List SDKEvent :=
  if bWasSuccessful && Response.isSome then
    match FJsonSerializer_Deserialize (getContentAsString Response) with
    | some JsonObject =>
        ({ s with
            AuthToken := getStringField JsonObject "token"
            TokenExpirationTime := now + ((getIntegerField JsonObject "expires_in" : ℤ) : ℚ) },
         [SDKEvent.logMessage "PlayerGold SDK authenticated successfully"])
    | none => (s, [])
  else
    (s, [SDKEvent.logMessage "PlayerGold SDK authentication failed"])

/-- UPlayerGoldSDK::GetBalance: runs the EnsureAuthenticated guard, then
sends GET /balance/{Address} (plain Printf concatenation of the address)
with completion bound to OnBalanceResponse. -/
def GetBalance (s : SDKState) (now : ℚ) (Address : String) : SDKState × List SDKEvent :=
  (s, EnsureAuthenticated s now ++
      [SDKEvent.sendRequest (CreateRequest s ("/balance/" ++ Address) "GET")
        Handler.balanceResponse])

/-- UPlayerGoldSDK::OnBalanceResponse: on a successful flag and valid
response, a deserializable body executes the success delegate with the
balance field (engine default 0 when the field is absent), and an
undeserializable body executes the error delegate with a fixed literal;
otherwise the error delegate receives the raw response content, or a fixed
literal when the response pointer is invalid. -/
def OnBalanceResponse (s : SDKState) (Response : Option HttpResponse)
    (bWasSuccessful : Bool) : SDKState × List SDKEvent :=
  if bWasSuccessful && Response.isSome then
    match FJsonSerializer_Deserialize (getContentAsString Response) with
    | some JsonObject =>
        (s, [SDKEvent.invokeBalanceSuccess (getNumberField JsonObject "balance")])
    | none =>
        (s, [SDKEvent.invokeError "Failed to parse balance response"])
  else
    (s, [SDKEvent.invokeError
          (if Response.isSome then getContentAsString Response else "Request failed")])

/-- UPlayerGoldSDK::CreateTransaction: runs the EnsureAuthenticated guard,
then sends POST /transaction whose body holds exactly the five fields the
source sets, the fee being the hard-coded constant 0.01. -/
def CreateTransaction (s : SDKState) (now : ℚ) (FromAddress ToAddress : String)
    (Amount : ℚ) (PrivateKey : String) : SDKState × List SDKEvent :=
  let Request := CreateRequest s "/transaction" "POST"
  let body : JObj :=
    [("from_address", JValue.jstr FromAddress),
     ("to_address", JValue.jstr ToAddress),
     ("amount", JValue.jnum Amount),
     ("private_key", JValue.jstr PrivateKey),
     ("fee", JValue.jnum 0.01)]
  (s, EnsureAuthenticated s now ++
      [SDKEvent.sendRequest { Request with content := some body }
        Handler.transactionResponse])

/-- UPlayerGoldSDK::OnTransactionResponse: same shape as OnBalanceResponse
with the transaction_hash field and its own fixed decode-failure literal. -/
def OnTransactionResponse (s : SDKState) (Response : Option HttpResponse)
    (bWasSuccessful : Bool) : SDKState × List SDKEvent :=
  if bWasSuccessful && Response.isSome then
    match FJsonSerializer_Deserialize (getContentAsString Response) with
    | some JsonObject =>
        (s, [SDKEvent.invokeTransactionSuccess (getStringField JsonObject "transaction_hash")])
    | none =>
        (s, [SDKEvent.invokeError "Failed to parse transaction response"])
  else
    (s, [SDKEvent.invokeError
          (if Response.isSome then getContentAsString Response else "Request failed")])

/-- UPlayerGoldSDK::GetTransaction: runs the EnsureAuthenticated guard,
then sends GET /transaction/{hash} with no completion handler bound. -/
def GetTransaction (s : SDKState) (now : ℚ) (TransactionHash : String) : SDKState × List SDKEvent :=
  (s, EnsureAuthenticated s now ++
      [SDKEvent.sendRequest (CreateRequest s ("/transaction/" ++ TransactionHash) "GET")
        Handler.unbound])

/-- UPlayerGoldSDK::GetNetworkStatus: sends GET /network/status with no
authentication guard and no completion handler bound. -/
def GetNetworkStatus (s : SDKState) : SDKState × List SDKEvent :=
  (s, [SDKEvent.sendRequest (CreateRequest s "/network/status" "GET") Handler.unbound])

/-- UPlayerGoldSDK::IsAuthenticated, a const method: token non-empty. -/
def IsAuthenticated (s : SDKState) : Bool :=
  !(s.AuthToken == "")

/-- An event list triggers an authenticate call when it hands the transport
a request bound to the authentication completion handler. -/
def triggersAuth (evs : List SDKEvent) : Prop :=
  ∃ req, SDKEvent.sendRequest req Handler.authResponse ∈ evs

/-- Delegate executions among the events (success or error deliveries to
the caller-supplied callbacks). -/
def isCallbackInvocation : SDKEvent → Bool
  | SDKEvent.invokeBalanceSuccess _ => true
  | SDKEvent.invokeTransactionSuccess _ => true
  | SDKEvent.invokeError _ => true
  | _ => false

/-- Number of delegate executions an event list performs. -/
def callbackInvocations (evs : List SDKEvent) : ℕ :=
  (evs.filter isCallbackInvocation).length

/-- A freshly initialized state: empty token, zero expiration. -/
def s0 : SDKState :=
  { ApiUrl := "http://localhost:5000/api/v1", ApiKey := "k", AuthToken := "",
    TokenExpirationTime := 0 }

/-- A state holding a token valid until time 10000. -/
def sTok : SDKState :=
  { ApiUrl := "https://api.example", ApiKey := "k", AuthToken := "tkn",
    TokenExpirationTime := 10000 }

/-- A success-status response body that is valid JSON but has no balance
field: the object with the single member "unexpected": "shape". -/
def unexpectedShapeBody : String := "\x7b\"unexpected\":\"shape\"\x7d"

/-- A response body that is not valid JSON at all. -/
def notJsonBody : String := "plainly not json"

/-- A successful authentication response body with token "abc" and
expires_in 3600. -/
def authBody : String := "\x7b\"token\":\"abc\",\"expires_in\":3600\x7d"

/-- The field list authBody deserializes to. -/
def authFields : JObj := [("token", JValue.jstr "abc"), ("expires_in", JValue.jnum 3600)]

/- Helper lemmas shared by the claim proofs. -/

/-- The int32 cast is the identity on values that are already integers. -/
theorem doubleToInt32_intCast (e : ℤ) : doubleToInt32 ((e : ℚ)) = e := by
  unfold doubleToInt32
  by_cases h : (0 : ℚ) ≤ (e : ℚ)
  · rw [if_pos h, Int.floor_intCast]
  · rw [if_neg h, ← Int.cast_neg, Int.floor_intCast, neg_neg]

/-- EnsureAuthenticated triggers an authenticate request exactly under its
renewal condition. -/
theorem ensure_triggers_iff (s : SDKState) (now : ℚ) :
    triggersAuth (EnsureAuthenticated s now) ↔
      (s.AuthToken = "" ∨ now ≥ s.TokenExpirationTime - 300) := by
  by_cases h : s.AuthToken = "" ∨ now ≥ s.TokenExpirationTime - 300 <;>
    simp [EnsureAuthenticated, h, triggersAuth, Authenticate]

/-- EnsureAuthenticated performs no action exactly when its renewal
condition fails. -/
theorem ensure_eq_nil_iff (s : SDKState) (now : ℚ) :
    EnsureAuthenticated s now = [] ↔
      ¬(s.AuthToken = "" ∨ now ≥ s.TokenExpirationTime - 300) := by
  by_cases h : s.AuthToken = "" ∨ now ≥ s.TokenExpirationTime - 300 <;>
    simp [EnsureAuthenticated, h, Authenticate]

/-- Appending a request bound to a handler other than the authentication
one does not change whether an event list triggers an authenticate call. -/
theorem triggersAuth_append_nonauth (evs : List SDKEvent) (req : HttpRequest)
    (h : Handler) (hne : h ≠ Handler.authResponse) :
    triggersAuth (evs ++ [SDKEvent.sendRequest req h]) ↔ triggersAuth evs := by
  unfold triggersAuth
  constructor
  · rintro ⟨r, hr⟩
    rcases List.mem_append.mp hr with hr | hr
    · exact ⟨r, hr⟩
    · have heq := List.mem_singleton.mp hr
      injection heq with h1 h2
      exact absurd h2.symm hne
  · rintro ⟨r, hr⟩
    exact ⟨r, List.mem_append_left _ hr⟩

/-- The state component of OnBalanceResponse is always the input state. -/
theorem OnBalanceResponse_fst (s : SDKState) (Response : Option HttpResponse)
    (b : Bool) : (OnBalanceResponse s Response b).1 = s := by
  unfold OnBalanceResponse
  split
  · split <;> rfl
  · rfl

/-- The state component of OnTransactionResponse is always the input
state. -/
theorem OnTransactionResponse_fst (s : SDKState) (Response : Option HttpResponse)
    (b : Bool) : (OnTransactionResponse s Response b).1 = s := by
  unfold OnTransactionResponse
  split
  · split <;> rfl
  · rfl

/-- C1 counterexample: a GetBalance completion with a success flag and the
valid-JSON body with the single member "unexpected": "shape" does not
deliver the fixed decode-failure literal to the error callback; it delivers
the engine default 0 to the success callback. -/
theorem claim1_counterexample :
    (OnBalanceResponse s0 (some { content := unexpectedShapeBody }) true).2 =
      [SDKEvent.invokeBalanceSuccess 0] ∧
    (OnBalanceResponse s0 (some { content := unexpectedShapeBody }) true).2 ≠
      [SDKEvent.invokeError "Failed to parse balance response"] := by
  have h1 : (OnBalanceResponse s0 (some { content := unexpectedShapeBody }) true).2 =
      [SDKEvent.invokeBalanceSuccess 0] := rfl
  refine ⟨h1, ?_⟩
  rw [h1]
  intro hEq
  injection hEq with h2 h3
  exact SDKEvent.noConfusion h2

/-- C1 (amended): for every GetBalance completion with a success flag and a
valid response, a body that fails JSON deserialization delivers exactly the
fixed literal "Failed to parse balance response" to the error callback and
nothing to the success callback, while a body that deserializes to a JSON
object lacking the balance field instead delivers the engine default value
0 to the success callback and nothing to the error callback; neither case
crashes. -/
theorem claim1_amended_decode (s : SDKState) (content : String) :
    (FJsonSerializer_Deserialize content = none →
      (OnBalanceResponse s (some { content := content }) true).2 =
        [SDKEvent.invokeError "Failed to parse balance response"]) ∧
    (∀ fields, FJsonSerializer_Deserialize content = some fields →
      findField fields "balance" = none →
      (OnBalanceResponse s (some { content := content }) true).2 =
        [SDKEvent.invokeBalanceSuccess 0]) := by
  constructor
  · intro h
    simp [OnBalanceResponse, getContentAsString, h]
  · intro fields h1 h2
    simp [OnBalanceResponse, getContentAsString, h1, getNumberField, h2]

/-- C1 amended witness: the two branches evaluated at the concrete bodies
"plainly not json" and the "unexpected": "shape" object. -/
theorem claim1_amended_decode_witness :
    (OnBalanceResponse sTok (some { content := notJsonBody }) true).2 =
      [SDKEvent.invokeError "Failed to parse balance response"] ∧
    (OnBalanceResponse sTok (some { content := unexpectedShapeBody }) true).2 =
      [SDKEvent.invokeBalanceSuccess 0] :=
  ⟨(claim1_amended_decode sTok notJsonBody).1 rfl,
   (claim1_amended_decode sTok unexpectedShapeBody).2
     [("unexpected", JValue.jstr "shape")] rfl rfl⟩

/-- C3: EnsureAuthenticated triggers an authenticate call exactly when the
token is empty or the clock has reached the expiration minus 300 seconds,
and performs no action at all otherwise. -/
theorem claim3_ensure_authenticated (s : SDKState) (now : ℚ) :
    (triggersAuth (EnsureAuthenticated s now) ↔
      (s.AuthToken = "" ∨ now ≥ s.TokenExpirationTime - 300)) ∧
    (EnsureAuthenticated s now = [] ↔
      ¬(s.AuthToken = "" ∨ now ≥ s.TokenExpirationTime - 300)) :=
  ⟨ensure_triggers_iff s now, ensure_eq_nil_iff s now⟩

/-- C3 witness: with an empty token the guard triggers authentication, and
with token "tkn" at time 0 against expiration 10000 it does nothing. -/
theorem claim3_witness :
    triggersAuth (EnsureAuthenticated s0 0) ∧ EnsureAuthenticated sTok 0 = [] :=
  ⟨(claim3_ensure_authenticated s0 0).1.mpr (Or.inl rfl),
   (claim3_ensure_authenticated sTok 0).2.mpr (by
      rintro (h | h)
      · exact absurd h (by decide)
      · exact absurd h (by norm_num [sTok]))⟩

/-- C4: an authentication completion with an unsuccessful flag or an
invalid response leaves the session state unchanged and performs nothing
but the failure log line, so no caller-visible error is delivered. -/
theorem claim4_auth_failure_frame (s : SDKState) (now : ℚ)
    (Response : Option HttpResponse) (bWasSuccessful : Bool)
    (h : bWasSuccessful = false ∨ Response = none) :
    OnAuthenticationResponse s now Response bWasSuccessful =
      (s, [SDKEvent.logMessage "PlayerGold SDK authentication failed"]) := by
  rcases h with h | h
  · subst h; rfl
  · subst h; cases bWasSuccessful <;> rfl

/-- C4 witness: a failed authentication completion at a concrete state. -/
theorem claim4_witness :
    OnAuthenticationResponse sTok 0 (some { content := "boom" }) false =
      (sTok, [SDKEvent.logMessage "PlayerGold SDK authentication failed"]) :=
  claim4_auth_failure_frame sTok 0 (some { content := "boom" }) false (Or.inl rfl)

/-- C5: for all arguments, CreateTransaction emits, after its
authentication guard, exactly one POST /transaction request whose JSON body
holds exactly the fields from_address, to_address, amount, private_key and
fee, the fee being the constant 0.01 independently of every argument. -/
theorem claim5_transaction_fee (s : SDKState) (now : ℚ)
    (FromAddress ToAddress : String) (Amount : ℚ) (PrivateKey : String) :
    (CreateTransaction s now FromAddress ToAddress Amount PrivateKey).2 =
      EnsureAuthenticated s now ++
      [SDKEvent.sendRequest
        { url := s.ApiUrl ++ "/transaction"
          verb := "POST"
          headers := (CreateRequest s "/transaction" "POST").headers
          content := some
            [("from_address", JValue.jstr FromAddress),
             ("to_address", JValue.jstr ToAddress),
             ("amount", JValue.jnum Amount),
             ("private_key", JValue.jstr PrivateKey),
             ("fee", JValue.jnum 0.01)] }
        Handler.transactionResponse] := rfl

/-- C6: a GetBalance or CreateTransaction completion that fails at the
transport level delivers the raw response body verbatim to the error
callback when a response exists, and the fixed literal "Request failed"
when the response pointer is invalid. -/
theorem claim6_transport_error_messages (s : SDKState) (body : String) (b : Bool) :
    (OnBalanceResponse s (some { content := body }) false).2 =
      [SDKEvent.invokeError body] ∧
    (OnTransactionResponse s (some { content := body }) false).2 =
      [SDKEvent.invokeError body] ∧
    (OnBalanceResponse s none b).2 = [SDKEvent.invokeError "Request failed"] ∧
    (OnTransactionResponse s none b).2 = [SDKEvent.invokeError "Request failed"] := by
  refine ⟨rfl, rfl, ?_, ?_⟩ <;> cases b <;> rfl

/-- C10: the request URL of GetBalance is the character-for-character
concatenation of the base URL, "/balance/" and the address, with no
escaping or validation, and likewise for GetTransaction with
"/transaction/" and the hash. -/
theorem claim10_url_concatenation (s : SDKState) (now : ℚ)
    (Address TransactionHash : String) :
    (GetBalance s now Address).2 =
      EnsureAuthenticated s now ++
      [SDKEvent.sendRequest (CreateRequest s ("/balance/" ++ Address) "GET")
        Handler.balanceResponse] ∧
    (CreateRequest s ("/balance/" ++ Address) "GET").url =
      s.ApiUrl ++ ("/balance/" ++ Address) ∧
    (GetTransaction s now TransactionHash).2 =
      EnsureAuthenticated s now ++
      [SDKEvent.sendRequest (CreateRequest s ("/transaction/" ++ TransactionHash) "GET")
        Handler.unbound] ∧
    (CreateRequest s ("/transaction/" ++ TransactionHash) "GET").url =
      s.ApiUrl ++ ("/transaction/" ++ TransactionHash) :=
  ⟨rfl, rfl, rfl, rfl⟩

/-- C2: a successful authentication completion whose body deserializes with
a token string field and an integral expires_in field sets AuthToken to
that token and TokenExpirationTime to now plus expires_in; and
InitializeSDK stores the api key and url and immediately performs the
authenticate call of the stored configuration. -/
theorem claim2_authentication (s : SDKState) (now : ℚ) (body : String)
    (fields : JObj) (tok : String) (e : ℤ)
    (hdes : FJsonSerializer_Deserialize body = some fields)
    (htok : findField fields "token" = some (JValue.jstr tok))
    (hexp : findField fields "expires_in" = some (JValue.jnum ((e : ℤ) : ℚ))) :
    ((OnAuthenticationResponse s now (some { content := body }) true).1.AuthToken = tok ∧
     (OnAuthenticationResponse s now (some { content := body }) true).1.TokenExpirationTime =
       now + ((e : ℤ) : ℚ)) ∧
    (∀ s1 key url, (InitializeSDK s1 key url).1.ApiKey = key ∧
      (InitializeSDK s1 key url).1.ApiUrl = url ∧
      (InitializeSDK s1 key url).2 = Authenticate (InitializeSDK s1 key url).1) := by
  refine ⟨?_, fun s1 key url => ⟨rfl, rfl, rfl⟩⟩
  constructor <;>
    simp [OnAuthenticationResponse, getContentAsString, hdes, getStringField,
      getIntegerField, getNumberField, htok, hexp, doubleToInt32_intCast]

/-- C2 witness: processing the concrete body with token "abc" and
expires_in 3600 at time 1000 stores that token and expiration 1000 + 3600. -/
theorem claim2_witness :
    (OnAuthenticationResponse sTok 1000 (some { content := authBody }) true).1.AuthToken =
      "abc" ∧
    (OnAuthenticationResponse sTok 1000 (some { content := authBody }) true).1.TokenExpirationTime =
      1000 + ((3600 : ℤ) : ℚ) :=
  (claim2_authentication sTok 1000 authBody authFields "abc" 3600 rfl rfl rfl).1

/-- C7: every request built by CreateRequest has the base URL concatenated
with the endpoint as its URL, always carries Content-Type
application/json, carries an Authorization header exactly when the stored
token is non-empty and then only the bearer form of that token, and an
empty token never suppresses a request: GetBalance always emits its
request. -/
theorem claim7_request_construction (s : SDKState) (Endpoint Verb : String) :
    (CreateRequest s Endpoint Verb).url = s.ApiUrl ++ Endpoint ∧
    ("Content-Type", "application/json") ∈ (CreateRequest s Endpoint Verb).headers ∧
    ((∃ v, ("Authorization", v) ∈ (CreateRequest s Endpoint Verb).headers) ↔
      ¬ s.AuthToken = "") ∧
    (∀ v, ("Authorization", v) ∈ (CreateRequest s Endpoint Verb).headers →
      v = "Bearer " ++ s.AuthToken) ∧
    (∀ now Address,
      SDKEvent.sendRequest (CreateRequest s ("/balance/" ++ Address) "GET")
        Handler.balanceResponse ∈ (GetBalance s now Address).2) := by
  refine ⟨rfl, ?_, ?_, ?_, ?_⟩
  · by_cases h : s.AuthToken = "" <;> simp [CreateRequest, h]
  · by_cases h : s.AuthToken = "" <;> simp [CreateRequest, h]
  · intro v hv
    by_cases h : s.AuthToken = "" <;> simp [CreateRequest, h] at hv
    exact hv
  · intro now Address
    simp [GetBalance]

/-- C7 witness: with the concrete token "tkn" the authorization header
value is forced to be "Bearer tkn", and the balance request of an
empty-token state is emitted anyway. -/
theorem claim7_witness :
    "Bearer tkn" = "Bearer " ++ sTok.AuthToken ∧
    SDKEvent.sendRequest (CreateRequest s0 ("/balance/" ++ "a") "GET")
      Handler.balanceResponse ∈ (GetBalance s0 0 "a").2 :=
  ⟨(claim7_request_construction sTok "/x" "GET").2.2.2.1 "Bearer tkn"
      (by simp [CreateRequest, sTok]),
   (claim7_request_construction s0 "/x" "GET").2.2.2.2 0 "a"⟩

/-- C8: GetBalance, CreateTransaction, GetTransaction, GetNetworkStatus and
the balance and transaction completion handlers leave the session fields
unchanged, the three guarded operations read the session and trigger an
authenticate call exactly under the renewal condition, and GetNetworkStatus
never triggers one. -/
theorem claim8_session_frame (s : SDKState) (now : ℚ)
    (Address FromAddress ToAddress PrivateKey TransactionHash : String)
    (Amount : ℚ) (Response : Option HttpResponse) (b : Bool) :
    (GetBalance s now Address).1 = s ∧
    (CreateTransaction s now FromAddress ToAddress Amount PrivateKey).1 = s ∧
    (GetTransaction s now TransactionHash).1 = s ∧
    (GetNetworkStatus s).1 = s ∧
    (OnBalanceResponse s Response b).1 = s ∧
    (OnTransactionResponse s Response b).1 = s ∧
    (triggersAuth (GetBalance s now Address).2 ↔
      (s.AuthToken = "" ∨ now ≥ s.TokenExpirationTime - 300)) ∧
    (triggersAuth (CreateTransaction s now FromAddress ToAddress Amount PrivateKey).2 ↔
      (s.AuthToken = "" ∨ now ≥ s.TokenExpirationTime - 300)) ∧
    (triggersAuth (GetTransaction s now TransactionHash).2 ↔
      (s.AuthToken = "" ∨ now ≥ s.TokenExpirationTime - 300)) ∧
    ¬ triggersAuth (GetNetworkStatus s).2 := by
  have hne : Handler.balanceResponse ≠ Handler.authResponse := fun h => Handler.noConfusion h
  have hne2 : Handler.transactionResponse ≠ Handler.authResponse := fun h => Handler.noConfusion h
  have hne3 : Handler.unbound ≠ Handler.authResponse := fun h => Handler.noConfusion h
  refine ⟨rfl, rfl, rfl, rfl, OnBalanceResponse_fst s Response b,
    OnTransactionResponse_fst s Response b, ?_, ?_, ?_, ?_⟩
  · exact (triggersAuth_append_nonauth _ _ _ hne).trans (ensure_triggers_iff s now)
  · exact (triggersAuth_append_nonauth _ _ _ hne2).trans (ensure_triggers_iff s now)
  · exact (triggersAuth_append_nonauth _ _ _ hne3).trans (ensure_triggers_iff s now)
  · rintro ⟨r, hr⟩
    have heq := List.mem_singleton.mp hr
    injection heq with h1 h2
    exact Handler.noConfusion h2

/-- C8 witness: frame and renewal facts at a concrete fresh state. -/
theorem claim8_witness :
    (GetBalance s0 0 "a").1 = s0 ∧
    (triggersAuth (GetBalance s0 0 "a").2 ↔
      (s0.AuthToken = "" ∨ (0 : ℚ) ≥ s0.TokenExpirationTime - 300)) ∧
    ¬ triggersAuth (GetNetworkStatus s0).2 :=
  ⟨(claim8_session_frame s0 0 "a" "f" "t" "k" "h" 1 none true).1,
   (claim8_session_frame s0 0 "a" "f" "t" "k" "h" 1 none true).2.2.2.2.2.2.1,
   (claim8_session_frame s0 0 "a" "f" "t" "k" "h" 1 none true).2.2.2.2.2.2.2.2.2⟩

/-- C9: every completion of a GetBalance or CreateTransaction request
executes exactly one of the two caller-supplied delegates, exactly once. -/
theorem claim9_exactly_one_callback (s : SDKState) (Response : Option HttpResponse)
    (b : Bool) :
    callbackInvocations (OnBalanceResponse s Response b).2 = 1 ∧
    callbackInvocations (OnTransactionResponse s Response b).2 = 1 := by
  cases Response with
  | none => cases b <;> exact ⟨rfl, rfl⟩
  | some r =>
    cases b with
    | false => exact ⟨rfl, rfl⟩
    | true =>
      constructor <;>
        rcases h : FJsonSerializer_Deserialize r.content with _ | fields <;>
          simp [OnBalanceResponse, OnTransactionResponse, getContentAsString, h,
            callbackInvocations, isCallbackInvocation]

end PlayerGold
